import Mathlib

/-
Shallow embedding of exp/ingest/ledgerbackend/captive_core_backend.go.

The captive backend streams LedgerCloseMeta records from a subprocess.
We embed the sequential logic of PrepareRange / GetLedger / Close /
openOfflineReplaySubprocess / GetLatestLedgerSequence /
LedgerWithinCheckpoints / roundDownToFirstReplayAfterCheckpointStart.

Collaborators that live behind interfaces in the Go code (the history
archive, the stellar-core runner, the pipe and the read-ahead goroutine
sendLedgerMeta) are represented by an environment: the archive query
result, whether stellarCoreRunner.run succeeds, whether the metadata
pipe is present, and the list of metaResult values that arrive on the
read-ahead channel metaC for a given run range.  GetLedger only ever
pulls from that channel, so the channel contents are modelled as a list
carried in the state.

All uint32 arithmetic that can overflow in Go (from-1 in PrepareRange,
sequence+ledgersPerProcess, nextLedger++ and
nextLedger+numCheckpoints*ledgersPerCheckpoint) is modelled on Nat with
an explicit % 2^32.

A ghost field openLog records each invocation of
openOfflineReplaySubprocess with its arguments; it changes no behavior
and lets theorems speak about which subprocess ranges were requested.
Close's own error (from stellarCoreRunner.close) is discarded by every
caller inside the Go file (lines 104, 225, 266, 274 use c.Close() as a
statement), so Close is modelled as returning only the new state.
-/

namespace CaptiveCore

def u32max : Nat := 4294967296

def ledgersPerProcess : Nat := 17280

def numCheckpointsLeeway : Nat := 10

def readAheadBufferSize : Nat := 2

/-- Modelled from the spec: ledgersPerCheckpoint is a domain constant whose
defining declaration is outside the provided source tree ("externally
defined, typically 64"; all spec scenarios use K = 64). We fix the value 64. -/
def ledgersPerCheckpoint : Nat := 64

def roundDownToFirstReplayAfterCheckpointStart (ledger : Nat) : Nat :=
  let v := ledger / ledgersPerCheckpoint * ledgersPerCheckpoint
  if v = 0 then 1 else v

structure LedgerCloseMeta where
  sequence : Nat
  body : Nat
  deriving DecidableEq, Repr

inductive CoreErr where
  | archiveErr (msg : String)
  | seqGreaterThanMax (next max : Nat)
  | runFailed
  | missingMetaPipe
  | unexpectedNextLedger
  | unexpectedLedger (expected actual : Nat)
  | pipeReadErr (msg : String)
  | wrap (msg : String) (e : CoreErr)
  deriving DecidableEq, Repr

/-- Strip the errors.Wrap layers and return the root cause. -/
def CoreErr.root : CoreErr → CoreErr
  | .wrap _ e => e.root
  | e => e

inductive metaResult where
  | ok (meta : LedgerCloseMeta)
  | err (e : CoreErr)
  deriving DecidableEq, Repr

structure CaptiveState where
  networkPassphrase : String
  historyURLs : List String
  lastLedger : Option Nat
  cachedMeta : Option LedgerCloseMeta
  nextLedger : Nat
  stream : List metaResult
  openLog : List (Nat × Nat)
  deriving DecidableEq, Repr

structure Env where
  archive : Except CoreErr Nat
  runOk : Bool
  pipePresent : Bool
  emit : Nat → Nat → List metaResult

def NewCaptive (networkPassphrase : String) (historyURLs : List String) : CaptiveState :=
  { networkPassphrase := networkPassphrase
    historyURLs := historyURLs
    lastLedger := none
    cachedMeta := none
    nextLedger := 0
    stream := []
    openLog := [] }

def IsClosed (c : CaptiveState) : Bool :=
  c.nextLedger == 0

def Close (c : CaptiveState) : CaptiveState :=
  if IsClosed c then c
  else { c with nextLedger := 0, lastLedger := none, stream := [] }

/-- Outcome of a Go call that can panic (index out of range). -/
inductive Res (α : Type) where
  | ok (a : α)
  | panicked
  deriving DecidableEq, Repr

def GetLatestLedgerSequence (env : Env) (c : CaptiveState) : Res (Except CoreErr Nat) :=
  match c.historyURLs with
  | [] => .panicked
  | _ :: _ => .ok env.archive

def openOfflineReplaySubprocess (env : Env) (c : CaptiveState)
    (nextLedger lastLedger : Nat) : Res (Except CoreErr Unit × CaptiveState) :=
  let c := { c with openLog := c.openLog ++ [(nextLedger, lastLedger)] }
  let c := Close c
  match GetLatestLedgerSequence env c with
  | .panicked => .panicked
  | .ok (.error e) => .ok (.error (.wrap "getting latest ledger sequence" e), c)
  | .ok (.ok maxLedger) =>
      if nextLedger > maxLedger then
        .ok (.error (.seqGreaterThanMax nextLedger maxLedger), c)
      else
        let lastLedger := if lastLedger > maxLedger then maxLedger else lastLedger
        if env.runOk then
          .ok (.ok (), { c with
            nextLedger := roundDownToFirstReplayAfterCheckpointStart nextLedger,
            lastLedger := some lastLedger,
            stream := env.emit nextLedger lastLedger })
        else
          .ok (.error (.wrap "error running stellar-core" .runFailed), c)

def LedgerWithinCheckpoints (c : CaptiveState) (ledger numCheckpoints : Nat) : Bool :=
  decide (c.nextLedger ≤ ledger ∧
    ledger ≤ (c.nextLedger + numCheckpoints * ledgersPerCheckpoint) % u32max)

inductive LoopRes where
  | found (c : CaptiveState) (meta : LedgerCloseMeta)
  | errOut (c : CaptiveState) (e : CoreErr)
  | blocked (c : CaptiveState)
  deriving DecidableEq, Repr

def LoopRes.stateOf : LoopRes → CaptiveState
  | .found c _ => c
  | .errOut c _ => c
  | .blocked c => c

/-- The pull loop of GetLedger (source lines 240-276): receive from the
read-ahead channel until the requested ledger appears; a mismatching
sequence or a channel error breaks out, and every break path closes the
backend before returning the error.  An empty channel with no producer
left corresponds to the Go receive blocking forever: LoopRes.blocked. -/
def pullLoop (sequence : Nat) (c : CaptiveState) : List metaResult → LoopRes
  | [] => .blocked c
  | .err e :: rest => .errOut (Close { c with stream := rest }) e
  | .ok meta :: rest =>
      if meta.sequence ≠ c.nextLedger then
        .errOut (Close { c with stream := rest })
          (.unexpectedLedger c.nextLedger meta.sequence)
      else
        let c1 : CaptiveState :=
          { c with nextLedger := (c.nextLedger + 1) % u32max, stream := rest }
        if meta.sequence = sequence then
          let c2 := { c1 with cachedMeta := some meta }
          .found (if c2.lastLedger = some meta.sequence then Close c2 else c2) meta
        else
          pullLoop sequence c1 rest

inductive GLRes where
  | ret (found : Bool) (meta : Option LedgerCloseMeta) (err : Option CoreErr) (c : CaptiveState)
  | panicked
  | blocked (c : CaptiveState)
  deriving DecidableEq, Repr

/-- GetLedger after the backend is (or just became) open: the in-range
check of source line 236 and then the pull loop. -/
def getLedgerOpened (sequence : Nat) (c : CaptiveState) : GLRes :=
  if !LedgerWithinCheckpoints c sequence 1 then
    .ret false none (some .unexpectedNextLedger) c
  else
    match pullLoop sequence c c.stream with
    | .blocked c => .blocked c
    | .found c m => .ret true (some m) none c
    | .errOut c e => .ret false none (some e) c

/-- GetLedger after the cache check and the close-if-out-of-leeway step:
open a replay subprocess if closed, then run the in-range check and the
pull loop. -/
def getLedgerBody (env : Env) (sequence : Nat) (c : CaptiveState) : GLRes :=
  if IsClosed c then
    match openOfflineReplaySubprocess env c sequence
        ((sequence + ledgersPerProcess) % u32max) with
    | .panicked => .panicked
    | .ok (.error e, c) => .ret false none (some (.wrap "opening subprocess" e)) c
    | .ok (.ok _, c) => getLedgerOpened sequence c
  else
    getLedgerOpened sequence c

def GetLedgerUncached (env : Env) (sequence : Nat) (c : CaptiveState) : GLRes :=
  getLedgerBody env sequence
    (if !IsClosed c && !LedgerWithinCheckpoints c sequence numCheckpointsLeeway
     then Close c else c)

def GetLedger (env : Env) (sequence : Nat) (c : CaptiveState) : GLRes :=
  match c.cachedMeta with
  | some m =>
      if sequence = m.sequence then .ret true (some m) none c
      else GetLedgerUncached env sequence c
  | none => GetLedgerUncached env sequence c

/-- True when the cached-record fast path of GetLedger fires. -/
def cacheHit (c : CaptiveState) (sequence : Nat) : Bool :=
  match c.cachedMeta with
  | some m => decide (sequence = m.sequence)
  | none => false

inductive PRRes where
  | ret (err : Option CoreErr) (c : CaptiveState)
  | panicked
  | blocked (c : CaptiveState)
  deriving DecidableEq, Repr

def PrepareRange (env : Env) (fromLedger toLedger : Nat) (c : CaptiveState) : PRRes :=
  let fm1 := (fromLedger + (u32max - 1)) % u32max
  match openOfflineReplaySubprocess env c fm1 toLedger with
  | .panicked => .panicked
  | .ok (.error e, c) => .ret (some (.wrap "opening subprocess" e)) c
  | .ok (.ok _, c) =>
      if env.pipePresent then
        match GetLedger env fm1 c with
        | .panicked => .panicked
        | .blocked c => .blocked c
        | .ret _ _ none c => .ret none c
        | .ret _ _ (some e) c => .ret (some (.wrap "opening getting ledger from-1" e)) c
      else
        .ret (some .missingMetaPipe) c

def GLRes.errOf : GLRes → Option CoreErr
  | .ret _ _ e _ => e
  | _ => none

def GLRes.foundOf : GLRes → Option Bool
  | .ret f _ _ _ => some f
  | _ => none

def GLRes.metaOf : GLRes → Option LedgerCloseMeta
  | .ret _ m _ _ => m
  | _ => none

def GLRes.closedAfter : GLRes → Bool
  | .ret _ _ _ c => IsClosed c
  | .blocked c => IsClosed c
  | .panicked => true

def GLRes.openLogAfter : GLRes → Option (List (Nat × Nat))
  | .ret _ _ _ c => some c.openLog
  | .blocked c => some c.openLog
  | .panicked => none

def PRRes.errOf : PRRes → Option CoreErr
  | .ret e _ => e
  | _ => none

def PRRes.returned : PRRes → Bool
  | .ret _ _ => true
  | _ => false

def PRRes.closedAfter : PRRes → Bool
  | .ret _ c => IsClosed c
  | .blocked c => IsClosed c
  | .panicked => true

/-- Observe the lastLedger field of the state a successful open produced. -/
def openLastLedgerAfter : Res (Except CoreErr Unit × CaptiveState) → Option (Option Nat)
  | .ok (.ok _, c) => some c.lastLedger
  | _ => none

/-- A benign environment with an empty pump stream. -/
def envC2cex : Env :=
  { archive := .ok 1000
    runOk := true
    pipePresent := true
    emit := fun _ _ => [] }

/-- An environment whose archive query fails. -/
def envArchiveBoom : Env :=
  { archive := .error (.archiveErr "boom")
    runOk := true
    pipePresent := true
    emit := fun _ _ => [] }

/-- Archive maximum 100, pump replays the checkpoint 64..100. -/
def env3cex : Env :=
  { archive := .ok 100
    runOk := true
    pipePresent := true
    emit := fun _ _ => (List.range' 64 37).map (fun s => metaResult.ok { sequence := s, body := 0 }) }

/-- Archive maximum 100, empty pump stream. -/
def env9w : Env :=
  { archive := .ok 100
    runOk := true
    pipePresent := true
    emit := fun _ _ => [] }

/-- Large archive maximum; the pump emits one record at the requested start. -/
def env5w : Env :=
  { archive := .ok 1000000
    runOk := true
    pipePresent := true
    emit := fun a _ => [metaResult.ok { sequence := a, body := 0 }] }

/-- The pump emits the single record with sequence 1. -/
def envOne : Env :=
  { archive := .ok 1000
    runOk := true
    pipePresent := true
    emit := fun _ _ => [metaResult.ok { sequence := 1, body := 2 }] }

/-- A freshly constructed backend. -/
def cFresh : CaptiveState := NewCaptive "p" ["u"]

/-- Closed backend that retains a cached record with sequence 5. -/
def cCached5 : CaptiveState := { cFresh with cachedMeta := some ⟨5, 0⟩ }

/-- Open backend whose gate is at 1000. -/
def cOpen1000 : CaptiveState := { cFresh with nextLedger := 1000 }

/-- Open backend whose gate is at 7. -/
def cGate7 : CaptiveState := { cFresh with nextLedger := 7 }

/-- Open backend whose gate is at 9. -/
def cGate9 : CaptiveState := { cFresh with nextLedger := 9 }

/-- cGate9 after consuming the record with sequence 9. -/
def cGate9After : CaptiveState := { cFresh with nextLedger := 10, cachedMeta := some ⟨9, 1⟩ }

/-- Open backend at gate 9 whose segment ends at 9, one record buffered. -/
def cSeg9 : CaptiveState := { cFresh with nextLedger := 9, lastLedger := some 9, stream := [metaResult.ok ⟨9, 3⟩] }

/-- cSeg9 after the segment-final read: closed, record cached. -/
def cSeg9After : CaptiveState := { cFresh with cachedMeta := some ⟨9, 3⟩ }

/-- The state after GetLedger envOne 1 cFresh succeeds. -/
def cOneAfter : CaptiveState :=
  { networkPassphrase := "p"
    historyURLs := ["u"]
    lastLedger := some 1000
    cachedMeta := some ⟨1, 2⟩
    nextLedger := 2
    stream := []
    openLog := [(1, 17281)] }

theorem isClosed_close (c : CaptiveState) : IsClosed (Close c) = true := by
  unfold Close
  split
  · assumption
  · rfl

theorem close_nextLedger (c : CaptiveState) : (Close c).nextLedger = 0 := by
  unfold Close
  split
  · next h => simpa [IsClosed] using h
  · rfl

theorem close_cachedMeta (c : CaptiveState) : (Close c).cachedMeta = c.cachedMeta := by
  unfold Close
  split <;> rfl

theorem close_historyURLs (c : CaptiveState) : (Close c).historyURLs = c.historyURLs := by
  unfold Close
  split <;> rfl

theorem close_openLog (c : CaptiveState) : (Close c).openLog = c.openLog := by
  unfold Close
  split <;> rfl

/-- Full characterization of openOfflineReplaySubprocess when the history
URL list is non-empty (so the archive query does not panic). -/
theorem open_eq (env : Env) (c : CaptiveState) (a b : Nat)
    (hurls : c.historyURLs ≠ []) :
    openOfflineReplaySubprocess env c a b =
      match env.archive with
      | .error e => .ok (.error (.wrap "getting latest ledger sequence" e),
          Close { c with openLog := c.openLog ++ [(a, b)] })
      | .ok maxLedger =>
          if a > maxLedger then
            .ok (.error (.seqGreaterThanMax a maxLedger),
              Close { c with openLog := c.openLog ++ [(a, b)] })
          else
            if env.runOk then
              .ok (.ok (), { Close { c with openLog := c.openLog ++ [(a, b)] } with
                nextLedger := roundDownToFirstReplayAfterCheckpointStart a,
                lastLedger := some (if b > maxLedger then maxLedger else b),
                stream := env.emit a (if b > maxLedger then maxLedger else b) })
            else
              .ok (.error (.wrap "error running stellar-core" .runFailed),
                Close { c with openLog := c.openLog ++ [(a, b)] }) := by
  obtain ⟨np, urls, ll, cm, nl, st, ol⟩ := c
  rcases urls with _ | ⟨u, us⟩
  · exact absurd rfl hurls
  · rcases harch : env.archive with e | maxLedger
    all_goals simp only [openOfflineReplaySubprocess, GetLatestLedgerSequence,
      close_historyURLs, harch]


/-- Pulling a channel error: break out, close. -/
theorem pullLoop_cons_err (sequence : Nat) (c : CaptiveState) (e : CoreErr)
    (rest : List metaResult) :
    pullLoop sequence c (.err e :: rest) =
      .errOut (Close { c with stream := rest }) e := rfl

/-- Pulling a record whose sequence differs from nextLedger: break out,
close, report the expected and actual sequences. -/
theorem pullLoop_cons_mismatch (sequence : Nat) (c : CaptiveState)
    (meta : LedgerCloseMeta) (rest : List metaResult)
    (h : meta.sequence ≠ c.nextLedger) :
    pullLoop sequence c (.ok meta :: rest) =
      .errOut (Close { c with stream := rest })
        (.unexpectedLedger c.nextLedger meta.sequence) := by
  simp only [pullLoop]
  rw [if_pos h]

/-- Pulling the requested record at the gate: cache it, advance the gate,
close if it is the segment end. -/
theorem pullLoop_cons_found (sequence : Nat) (c : CaptiveState)
    (meta : LedgerCloseMeta) (rest : List metaResult)
    (hseq : meta.sequence = c.nextLedger) (hreq : meta.sequence = sequence) :
    pullLoop sequence c (.ok meta :: rest) =
      .found (if c.lastLedger = some meta.sequence then
          Close { c with nextLedger := (c.nextLedger + 1) % u32max, stream := rest, cachedMeta := some meta }
        else { c with nextLedger := (c.nextLedger + 1) % u32max, stream := rest, cachedMeta := some meta }) meta := by
  simp only [pullLoop]
  rw [if_neg (not_not_intro hseq), if_pos hreq]

/-- Pulling a matching record that is not the requested one: advance the
gate by exactly one and keep pulling. -/
theorem pullLoop_cons_skip (sequence : Nat) (c : CaptiveState)
    (meta : LedgerCloseMeta) (rest : List metaResult)
    (hseq : meta.sequence = c.nextLedger) (hreq : meta.sequence ≠ sequence) :
    pullLoop sequence c (.ok meta :: rest) =
      pullLoop sequence { c with nextLedger := (c.nextLedger + 1) % u32max, stream := rest } rest := by
  simp only [pullLoop]
  rw [if_neg (not_not_intro hseq), if_neg hreq]

/-- Invariants of the pull loop: the ghost openLog never changes, every
error exit leaves a closed state, and a found exit delivers the requested
sequence, caches it, and either closed (segment end) or advanced the gate
one past the request. -/
theorem pullLoop_inv (sequence : Nat) :
    ∀ (stream : List metaResult) (c : CaptiveState),
      (pullLoop sequence c stream).stateOf.openLog = c.openLog ∧
      (∀ c' e, pullLoop sequence c stream = .errOut c' e → IsClosed c' = true) ∧
      (∀ c' m, pullLoop sequence c stream = .found c' m →
        m.sequence = sequence ∧ c'.cachedMeta = some m ∧
        (c.lastLedger = some sequence → c'.nextLedger = 0) ∧
        (c.lastLedger ≠ some sequence →
          c'.nextLedger = (sequence + 1) % u32max ∧ c'.lastLedger = c.lastLedger)) := by
  intro stream
  induction stream with
  | nil =>
      intro c
      refine ⟨rfl, ?_, ?_⟩ <;> intro c' x h <;> exact LoopRes.noConfusion h
  | cons r rest ih =>
      intro c
      rcases r with meta | e
      · by_cases hseq : meta.sequence = c.nextLedger
        · by_cases hreq : meta.sequence = sequence
          · rw [pullLoop_cons_found sequence c meta rest hseq hreq]
            refine ⟨?_, ?_, ?_⟩
            · split <;> simp [close_openLog, LoopRes.stateOf]
            · intro c' e h
              exact LoopRes.noConfusion h
            · intro c' m h
              rw [LoopRes.found.injEq] at h
              obtain ⟨hc', hm⟩ := h
              subst hm
              have hns : c.nextLedger = sequence := hseq ▸ hreq
              refine ⟨hreq, ?_, ?_, ?_⟩
              · rw [← hc']
                split <;> simp [close_cachedMeta]
              · intro hlast
                rw [← hc', if_pos (by rw [hreq]; exact hlast)]
                exact close_nextLedger _
              · intro hlast
                rw [← hc', if_neg (by rw [hreq]; exact hlast)]
                exact ⟨by simp [hns], rfl⟩
          · rw [pullLoop_cons_skip sequence c meta rest hseq hreq]
            obtain ⟨ih1, ih2, ih3⟩ :=
              ih { c with nextLedger := (c.nextLedger + 1) % u32max, stream := rest }
            exact ⟨ih1, ih2, fun c' m h => ih3 c' m h⟩
        · rw [pullLoop_cons_mismatch sequence c meta rest hseq]
          refine ⟨by simp [close_openLog, LoopRes.stateOf], ?_, ?_⟩
          · intro c' e h
            rw [LoopRes.errOut.injEq] at h
            rw [← h.1]
            exact isClosed_close _
          · intro c' m h
            exact LoopRes.noConfusion h
      · rw [pullLoop_cons_err sequence c e rest]
        refine ⟨by simp [close_openLog, LoopRes.stateOf], ?_, ?_⟩
        · intro c' e' h
          rw [LoopRes.errOut.injEq] at h
          rw [← h.1]
          exact isClosed_close _
        · intro c' m h
          exact LoopRes.noConfusion h


/-- An empty history URL list makes the open panic on the archive query. -/
theorem open_panicked (env : Env) (c : CaptiveState) (a b : Nat)
    (h : c.historyURLs = []) :
    openOfflineReplaySubprocess env c a b = .panicked := by
  simp only [openOfflineReplaySubprocess, GetLatestLedgerSequence, close_historyURLs, h]

/-- The archive query failed: the open reports it, state closed. -/
theorem open_archive_err (env : Env) (c : CaptiveState) (a b : Nat) (e : CoreErr)
    (hurls : c.historyURLs ≠ []) (harch : env.archive = .error e) :
    openOfflineReplaySubprocess env c a b =
      .ok (.error (.wrap "getting latest ledger sequence" e),
        Close { c with openLog := c.openLog ++ [(a, b)] }) := by
  obtain ⟨u, us, hl⟩ := List.exists_cons_of_ne_nil hurls
  simp only [openOfflineReplaySubprocess, GetLatestLedgerSequence,
    close_historyURLs, hl, harch]

/-- The requested start exceeds the archive maximum: setup error, closed. -/
theorem open_seq_gt (env : Env) (c : CaptiveState) (a b maxL : Nat)
    (hurls : c.historyURLs ≠ []) (harch : env.archive = .ok maxL) (hgt : a > maxL) :
    openOfflineReplaySubprocess env c a b =
      .ok (.error (.seqGreaterThanMax a maxL),
        Close { c with openLog := c.openLog ++ [(a, b)] }) := by
  obtain ⟨u, us, hl⟩ := List.exists_cons_of_ne_nil hurls
  simp only [openOfflineReplaySubprocess, GetLatestLedgerSequence,
    close_historyURLs, hl, harch]
  rw [if_pos hgt]

/-- stellar-core failed to run: wrapped error, closed. -/
theorem open_run_failed (env : Env) (c : CaptiveState) (a b maxL : Nat)
    (hurls : c.historyURLs ≠ []) (harch : env.archive = .ok maxL)
    (hle : ¬ a > maxL) (hrun : env.runOk = false) :
    openOfflineReplaySubprocess env c a b =
      .ok (.error (.wrap "error running stellar-core" .runFailed),
        Close { c with openLog := c.openLog ++ [(a, b)] }) := by
  obtain ⟨u, us, hl⟩ := List.exists_cons_of_ne_nil hurls
  simp only [openOfflineReplaySubprocess, GetLatestLedgerSequence,
    close_historyURLs, hl, harch, hrun]
  rw [if_neg hle]
  simp

/-- The open succeeded: gate at the checkpoint-aligned start, segment end
clamped to the archive maximum, channel filled by the pump. -/
theorem open_run_ok (env : Env) (c : CaptiveState) (a b maxL : Nat)
    (hurls : c.historyURLs ≠ []) (harch : env.archive = .ok maxL)
    (hle : ¬ a > maxL) (hrun : env.runOk = true) :
    openOfflineReplaySubprocess env c a b =
      .ok (.ok (), { Close { c with openLog := c.openLog ++ [(a, b)] } with
        nextLedger := roundDownToFirstReplayAfterCheckpointStart a,
        lastLedger := some (if b > maxL then maxL else b),
        stream := env.emit a (if b > maxL then maxL else b) }) := by
  obtain ⟨u, us, hl⟩ := List.exists_cons_of_ne_nil hurls
  simp only [openOfflineReplaySubprocess, GetLatestLedgerSequence,
    close_historyURLs, hl, harch, hrun]
  rw [if_neg hle]
  simp

/-- Every error return of openOfflineReplaySubprocess carries a closed state. -/
theorem open_err_closed (env : Env) (c : CaptiveState) (a b : Nat) :
    ∀ e c', openOfflineReplaySubprocess env c a b = .ok (.error e, c') →
      IsClosed c' = true := by
  intro e c' h
  by_cases hurls : c.historyURLs = []
  · rw [open_panicked env c a b hurls] at h
    exact Res.noConfusion h
  · rcases harch : env.archive with e2 | maxLedger
    · rw [open_archive_err env c a b e2 hurls harch] at h
      rw [Res.ok.injEq, Prod.mk.injEq] at h
      rw [← h.2]
      exact isClosed_close _
    · by_cases hgt : a > maxLedger
      · rw [open_seq_gt env c a b maxLedger hurls harch hgt] at h
        rw [Res.ok.injEq, Prod.mk.injEq] at h
        rw [← h.2]
        exact isClosed_close _
      · rcases hrun : env.runOk
        · rw [open_run_failed env c a b maxLedger hurls harch hgt hrun] at h
          rw [Res.ok.injEq, Prod.mk.injEq] at h
          rw [← h.2]
          exact isClosed_close _
        · rw [open_run_ok env c a b maxLedger hurls harch hgt hrun] at h
          rw [Res.ok.injEq, Prod.mk.injEq] at h
          exact absurd h.1 (by simp)

/-- A successful open yields the clamped segment end. -/
theorem open_success_lastLedger (env : Env) (c : CaptiveState) (a b maxL : Nat)
    (hurls : c.historyURLs ≠ []) (harch : env.archive = .ok maxL)
    (hle : a ≤ maxL) (hrun : env.runOk = true) :
    openLastLedgerAfter (openOfflineReplaySubprocess env c a b) =
      some (some (min b maxL)) := by
  rw [open_run_ok env c a b maxL hurls harch (by omega) hrun]
  have hmin : (if b > maxL then maxL else b) = min b maxL := by
    rcases le_or_lt b maxL with hb | hb
    · rw [if_neg (by omega), Nat.min_eq_left hb]
    · rw [if_pos hb, Nat.min_eq_right (le_of_lt hb)]
  simp [openLastLedgerAfter, hmin]

/-- The ghost openLog after any non-panicking open invocation records its
arguments. -/
theorem open_openLog (env : Env) (c : CaptiveState) (a b : Nat)
    (hurls : c.historyURLs ≠ []) :
    ∀ r c', openOfflineReplaySubprocess env c a b = .ok (r, c') →
      c'.openLog = c.openLog ++ [(a, b)] := by
  intro r c' h
  rcases harch : env.archive with e2 | maxLedger
  · rw [open_archive_err env c a b e2 hurls harch] at h
    rw [Res.ok.injEq, Prod.mk.injEq] at h
    rw [← h.2, close_openLog]
  · by_cases hgt : a > maxLedger
    · rw [open_seq_gt env c a b maxLedger hurls harch hgt] at h
      rw [Res.ok.injEq, Prod.mk.injEq] at h
      rw [← h.2, close_openLog]
    · rcases hrun : env.runOk
      · rw [open_run_failed env c a b maxLedger hurls harch hgt hrun] at h
        rw [Res.ok.injEq, Prod.mk.injEq] at h
        rw [← h.2, close_openLog]
      · rw [open_run_ok env c a b maxLedger hurls harch hgt hrun] at h
        rw [Res.ok.injEq, Prod.mk.injEq] at h
        rw [← h.2]
        simp [close_openLog]


/-- getLedgerOpened never touches the ghost openLog. -/
theorem opened_openLog (s : Nat) (c : CaptiveState) :
    (getLedgerOpened s c).openLogAfter = some c.openLog := by
  unfold getLedgerOpened
  split
  · rfl
  · rcases hp : pullLoop s c c.stream with ⟨cf, mf⟩ | ⟨ce, ee⟩ | cb <;>
      have h1 := (pullLoop_inv s c.stream c).1 <;> rw [hp] at h1 <;>
      simpa [LoopRes.stateOf, GLRes.openLogAfter] using h1

/-- Every error return of getLedgerOpened other than the in-range check
failure carries a closed state. -/
theorem opened_err_closed (s : Nat) (c : CaptiveState) :
    ∀ f m e c', getLedgerOpened s c = .ret f m (some e) c' →
      e.root ≠ .unexpectedNextLedger → IsClosed c' = true := by
  intro f m e c' h hroot
  unfold getLedgerOpened at h
  split at h
  · rw [GLRes.ret.injEq] at h
    obtain ⟨-, -, he, -⟩ := h
    rw [Option.some.injEq] at he
    rw [← he] at hroot
    exact absurd rfl hroot
  · rcases hp : pullLoop s c c.stream with ⟨cf, mf⟩ | ⟨ce, ee⟩ | cb <;> rw [hp] at h
    · rw [GLRes.ret.injEq] at h
      exact Option.noConfusion h.2.2.1
    · rw [GLRes.ret.injEq] at h
      rw [← h.2.2.2]
      exact (pullLoop_inv s c.stream c).2.1 ce ee hp
    · exact GLRes.noConfusion h

/-- A cache miss sends GetLedger into the uncached path. -/
theorem getLedger_of_cacheMiss (env : Env) (s : Nat) (c : CaptiveState)
    (h : cacheHit c s = false) : GetLedger env s c = GetLedgerUncached env s c := by
  unfold GetLedger
  rcases hcm : c.cachedMeta with _ | m
  · rfl
  · unfold cacheHit at h
    rw [hcm] at h
    simp only [decide_eq_false_iff_not] at h
    simp only [if_neg h]

/-- Every error return of getLedgerBody other than the in-range check
failure carries a closed state. -/
theorem body_err_closed (env : Env) (s : Nat) (c : CaptiveState) :
    ∀ f m e c', getLedgerBody env s c = .ret f m (some e) c' →
      e.root ≠ .unexpectedNextLedger → IsClosed c' = true := by
  intro f m e c' h hroot
  unfold getLedgerBody at h
  split at h
  · split at h
    · exact GLRes.noConfusion h
    · next e2 c2 heq =>
        rw [GLRes.ret.injEq] at h
        rw [← h.2.2.2]
        exact open_err_closed env c s _ e2 c2 heq
    · next u c2 heq =>
        exact opened_err_closed s c2 f m e c' h hroot
  · exact opened_err_closed s c f m e c' h hroot

/-- Every error return of GetLedger whose root cause is not the in-range
check failure carries a closed state. -/
theorem getLedger_err_closed (env : Env) (s : Nat) (c : CaptiveState) :
    ∀ f m e c', GetLedger env s c = .ret f m (some e) c' →
      e.root ≠ .unexpectedNextLedger → IsClosed c' = true := by
  intro f m e c' h hroot
  by_cases hch : cacheHit c s = false
  · rw [getLedger_of_cacheMiss env s c hch] at h
    unfold GetLedgerUncached at h
    exact body_err_closed env s _ f m e c' h hroot
  · rw [Bool.not_eq_false] at hch
    unfold cacheHit at hch
    rcases hcm : c.cachedMeta with _ | m0 <;> rw [hcm] at hch
    · exact Bool.noConfusion hch
    · rw [decide_eq_true_eq] at hch
      unfold GetLedger at h
      rw [hcm] at h
      simp only [if_pos hch] at h
      rw [GLRes.ret.injEq] at h
      exact Option.noConfusion h.2.2.1


/-- With a non-empty history URL list the open cannot panic. -/
theorem open_ne_panicked (env : Env) (c : CaptiveState) (a b : Nat)
    (hurls : c.historyURLs ≠ []) :
    openOfflineReplaySubprocess env c a b ≠ .panicked := by
  intro hcon
  rcases harch : env.archive with e2 | maxLedger
  · rw [open_archive_err env c a b e2 hurls harch] at hcon
    exact Res.noConfusion hcon
  · by_cases hgt : a > maxLedger
    · rw [open_seq_gt env c a b maxLedger hurls harch hgt] at hcon
      exact Res.noConfusion hcon
    · rcases hrun : env.runOk
      · rw [open_run_failed env c a b maxLedger hurls harch hgt hrun] at hcon
        exact Res.noConfusion hcon
      · rw [open_run_ok env c a b maxLedger hurls harch hgt hrun] at hcon
        exact Res.noConfusion hcon

/-- Opening from a closed backend appends exactly one entry, the requested
range, to the ghost openLog, whatever happens afterwards. -/
theorem body_closed_openLog (env : Env) (s : Nat) (c : CaptiveState)
    (hcl : IsClosed c = true) (hurls : c.historyURLs ≠ []) :
    (getLedgerBody env s c).openLogAfter =
      some (c.openLog ++ [(s, (s + ledgersPerProcess) % u32max)]) := by
  unfold getLedgerBody
  rw [if_pos hcl]
  rcases ho : openOfflineReplaySubprocess env c s ((s + ledgersPerProcess) % u32max) with
    ⟨⟨e2 | u, c2⟩⟩ | _
  · show some c2.openLog = _
    rw [open_openLog env c s _ hurls (.error e2) c2 ho]
  · show (getLedgerOpened s c2).openLogAfter = _
    rw [opened_openLog s c2]
    rw [open_openLog env c s _ hurls (.ok u) c2 ho]
  · exact absurd ho (open_ne_panicked env c s _ hurls)

/-- A GetLedger return of the shape (true, m, nil) comes with the record
cached and carrying the requested sequence: lemma for getLedgerOpened. -/
theorem opened_true_cached (s : Nat) (c : CaptiveState) :
    ∀ m c', getLedgerOpened s c = .ret true m none c' →
      ∃ mm, m = some mm ∧ mm.sequence = s ∧ c'.cachedMeta = some mm := by
  intro m c' h
  unfold getLedgerOpened at h
  split at h
  · rw [GLRes.ret.injEq] at h
    exact absurd h.1 (by simp)
  · rcases hp : pullLoop s c c.stream with ⟨cf, mf⟩ | ⟨ce, ee⟩ | cb <;> rw [hp] at h
    · rw [GLRes.ret.injEq] at h
      obtain ⟨-, hm, -, hc⟩ := h
      have hi := (pullLoop_inv s c.stream c).2.2 cf mf hp
      refine ⟨mf, hm.symm, hi.1, ?_⟩
      rw [← hc]
      exact hi.2.1
    · rw [GLRes.ret.injEq] at h
      exact absurd h.1 (by simp)
    · exact GLRes.noConfusion h

/-- Same for getLedgerBody. -/
theorem body_true_cached (env : Env) (s : Nat) (c : CaptiveState) :
    ∀ m c', getLedgerBody env s c = .ret true m none c' →
      ∃ mm, m = some mm ∧ mm.sequence = s ∧ c'.cachedMeta = some mm := by
  intro m c' h
  unfold getLedgerBody at h
  split at h
  · split at h
    · exact GLRes.noConfusion h
    · rw [GLRes.ret.injEq] at h
      exact absurd h.1 (by simp)
    · exact opened_true_cached s _ m c' h
  · exact opened_true_cached s c m c' h

/-- Same for GetLedger. -/
theorem getLedger_true_cached (env : Env) (s : Nat) (c : CaptiveState) :
    ∀ m c', GetLedger env s c = .ret true m none c' →
      ∃ mm, m = some mm ∧ mm.sequence = s ∧ c'.cachedMeta = some mm := by
  intro m c' h
  unfold GetLedger at h
  split at h
  · next m0 heq =>
      split at h
      · next hif =>
          rw [GLRes.ret.injEq] at h
          obtain ⟨-, hm, -, hc⟩ := h
          refine ⟨m0, hm.symm, hif.symm, ?_⟩
          rw [← hc]
          exact heq
      · unfold GetLedgerUncached at h
        exact body_true_cached env s _ m c' h
  · unfold GetLedgerUncached at h
    exact body_true_cached env s _ m c' h


/-- An open backend can never deliver ledger 0: the in-range check needs
nextLedger ≤ 0 while an open gate is nonzero. -/
theorem opened_zero_fails (cx : CaptiveState) (h : cx.nextLedger ≠ 0) :
    (getLedgerOpened 0 cx).errOf.isSome = true := by
  unfold getLedgerOpened
  have hw : LedgerWithinCheckpoints cx 0 1 = false := by
    unfold LedgerWithinCheckpoints
    rw [decide_eq_false_iff_not]
    rintro ⟨h1, -⟩
    omega
  rw [hw]
  rfl

/-- From a closed backend with a working archive and runner, GetLedger 0
still fails: the reopened gate starts at 1 > 0. -/
theorem body_zero_fails (env : Env) (maxL : Nat) (c : CaptiveState)
    (hcl : IsClosed c = true) (hurls : c.historyURLs ≠ [])
    (harch : env.archive = .ok maxL) (hrun : env.runOk = true) :
    (getLedgerBody env 0 c).errOf.isSome = true := by
  unfold getLedgerBody
  rw [if_pos hcl,
    open_run_ok env c 0 ((0 + ledgersPerProcess) % u32max) maxL hurls harch (by omega) hrun]
  refine opened_zero_fails _ ?_
  show roundDownToFirstReplayAfterCheckpointStart 0 ≠ 0
  decide

/-- GetLedger 0 fails on every backend with a working archive and runner
and no (impossible) cached sequence-0 record. -/
theorem getLedger_zero_fails (env : Env) (maxL : Nat) (c : CaptiveState)
    (hurls : c.historyURLs ≠ []) (harch : env.archive = .ok maxL)
    (hrun : env.runOk = true)
    (hcache : ∀ m, c.cachedMeta = some m → m.sequence ≠ 0) :
    (GetLedger env 0 c).errOf.isSome = true := by
  have hmiss : cacheHit c 0 = false := by
    unfold cacheHit
    rcases hcm : c.cachedMeta with _ | m
    · rfl
    · rw [decide_eq_false_iff_not]
      exact fun hh => hcache m hcm hh.symm
  rw [getLedger_of_cacheMiss env 0 c hmiss]
  unfold GetLedgerUncached
  have hclmid : IsClosed (if !IsClosed c && !LedgerWithinCheckpoints c 0 numCheckpointsLeeway
      then Close c else c) = true := by
    rcases hc : IsClosed c
    · have hnz : c.nextLedger ≠ 0 := by
        unfold IsClosed at hc
        simpa using hc
      have hw : LedgerWithinCheckpoints c 0 numCheckpointsLeeway = false := by
        unfold LedgerWithinCheckpoints
        rw [decide_eq_false_iff_not]
        rintro ⟨h1, -⟩
        omega
      rw [hw]
      simp [isClosed_close]
    · simpa using hc
  have hurlsmid : (if !IsClosed c && !LedgerWithinCheckpoints c 0 numCheckpointsLeeway
      then Close c else c).historyURLs ≠ [] := by
    split
    · rw [close_historyURLs]
      exact hurls
    · exact hurls
  have hcmid : ∀ m, (if !IsClosed c && !LedgerWithinCheckpoints c 0 numCheckpointsLeeway
      then Close c else c).cachedMeta = some m → m.sequence ≠ 0 := by
    intro m hm
    refine hcache m ?_
    rw [← hm]
    split
    · rw [close_cachedMeta]
    · rfl
  exact body_zero_fails env maxL _ hclmid hurlsmid harch hrun

/-- C1: in GetLedger's pull loop, a record is delivered only when its
sequence equals nextLedger, nextLedger advances by exactly one (uint32)
per consumed record, and a pulled record whose sequence differs stops the
loop, closes the backend and yields the error
"unexpected ledger (expected=A actual=B)" with A the gate and B the
record's sequence. -/
theorem getLedger_pull_gate (sequence : Nat) (c : CaptiveState) (m : LedgerCloseMeta)
    (rest : List metaResult) :
    (m.sequence ≠ c.nextLedger →
        pullLoop sequence c (.ok m :: rest) =
          .errOut (Close { c with stream := rest })
            (.unexpectedLedger c.nextLedger m.sequence) ∧
        IsClosed (Close { c with stream := rest }) = true) ∧
    (m.sequence = c.nextLedger → m.sequence ≠ sequence →
        pullLoop sequence c (.ok m :: rest) =
          pullLoop sequence { c with nextLedger := (c.nextLedger + 1) % u32max, stream := rest } rest) ∧
    (∀ stream c' m', pullLoop sequence c stream = .found c' m' →
        m'.sequence = sequence ∧
        (c.lastLedger = some sequence → c'.nextLedger = 0) ∧
        (c.lastLedger ≠ some sequence → c'.nextLedger = (sequence + 1) % u32max)) := by
  refine ⟨?_, ?_, ?_⟩
  · intro h
    exact ⟨pullLoop_cons_mismatch sequence c m rest h, isClosed_close _⟩
  · intro h1 h2
    exact pullLoop_cons_skip sequence c m rest h1 h2
  · intro stream c' m' h
    have hi := (pullLoop_inv sequence stream c).2.2 c' m' h
    exact ⟨hi.1, hi.2.2.1, fun hl => (hi.2.2.2 hl).1⟩

theorem getLedger_pull_gate_witness :
    (pullLoop 9 cGate7 [.ok ⟨5, 0⟩] =
        .errOut (Close { cGate7 with stream := [] }) (.unexpectedLedger cGate7.nextLedger 5) ∧
      IsClosed (Close { cGate7 with stream := [] }) = true) ∧
    (pullLoop 9 cGate7 [.ok ⟨7, 0⟩] =
        pullLoop 9 { cGate7 with nextLedger := (cGate7.nextLedger + 1) % u32max, stream := [] } []) ∧
    ((⟨9, 1⟩ : LedgerCloseMeta).sequence = 9 ∧
      (cGate9.lastLedger = some 9 → cGate9After.nextLedger = 0) ∧
      (cGate9.lastLedger ≠ some 9 → cGate9After.nextLedger = (9 + 1) % u32max)) :=
  ⟨(getLedger_pull_gate 9 cGate7 ⟨5, 0⟩ []).1 (by decide),
   (getLedger_pull_gate 9 cGate7 ⟨7, 0⟩ []).2.1 (by decide) (by decide),
   (getLedger_pull_gate 9 cGate9 ⟨0, 0⟩ []).2.2 [.ok ⟨9, 1⟩] cGate9After ⟨9, 1⟩ (by decide)⟩

/-- C4 counterexample: the claim also asserts checkpoint_align(s) =
floor(s / K) * K for every s > 0, but at s = 1 the code returns 1 while
the formula gives 0. -/
theorem checkpoint_align_floor_cex :
    ¬ (roundDownToFirstReplayAfterCheckpointStart 1 =
        1 / ledgersPerCheckpoint * ledgersPerCheckpoint) := by decide

/-- C4 amended: checkpoint_align(1) = 1; the floor formula holds for
s ≥ K; below K every positive s aligns to 1; and alignment never exceeds
a positive input. -/
theorem checkpoint_align_props :
    roundDownToFirstReplayAfterCheckpointStart 1 = 1 ∧
    (∀ s, ledgersPerCheckpoint ≤ s →
        roundDownToFirstReplayAfterCheckpointStart s =
          s / ledgersPerCheckpoint * ledgersPerCheckpoint) ∧
    (∀ s, 0 < s → s < ledgersPerCheckpoint →
        roundDownToFirstReplayAfterCheckpointStart s = 1) ∧
    (∀ s, 0 < s → roundDownToFirstReplayAfterCheckpointStart s ≤ s) := by
  refine ⟨by decide, ?_, ?_, ?_⟩
  · intro s hs
    unfold roundDownToFirstReplayAfterCheckpointStart
    have h1 : s / ledgersPerCheckpoint * ledgersPerCheckpoint ≠ 0 := by
      have hd : 1 ≤ s / ledgersPerCheckpoint := (Nat.one_le_div_iff (by decide)).mpr hs
      have : ledgersPerCheckpoint ≠ 0 := by decide
      positivity
    simp [h1]
  · intro s h0 hK
    unfold roundDownToFirstReplayAfterCheckpointStart
    have hz : s / ledgersPerCheckpoint = 0 := Nat.div_eq_of_lt hK
    simp [hz]
  · intro s h0
    unfold roundDownToFirstReplayAfterCheckpointStart
    by_cases h : s / ledgersPerCheckpoint * ledgersPerCheckpoint = 0
    · simp only [h, if_pos]
      exact h0
    · simp only [h, if_neg, if_false]
      exact Nat.div_mul_le_self s ledgersPerCheckpoint

theorem checkpoint_align_props_witness :
    roundDownToFirstReplayAfterCheckpointStart 100 =
      100 / ledgersPerCheckpoint * ledgersPerCheckpoint ∧
    roundDownToFirstReplayAfterCheckpointStart 63 = 1 ∧
    roundDownToFirstReplayAfterCheckpointStart 100 ≤ 100 :=
  ⟨checkpoint_align_props.2.1 100 (by decide),
   checkpoint_align_props.2.2.1 63 (by decide) (by decide),
   checkpoint_align_props.2.2.2 100 (by decide)⟩

/-- C6: when the pull loop finds the requested record and the segment end
lastLedger equals the requested sequence, the backend is closed before
GetLedger returns (true, meta, nil). -/
theorem pullLoop_lastLedger_closes (sequence : Nat) (c : CaptiveState)
    (stream : List metaResult) (c' : CaptiveState) (m : LedgerCloseMeta)
    (hlast : c.lastLedger = some sequence)
    (hfound : pullLoop sequence c stream = .found c' m) :
    IsClosed c' = true ∧
    (LedgerWithinCheckpoints c sequence 1 = true → c.stream = stream →
      getLedgerOpened sequence c = .ret true (some m) none c') := by
  have hi := (pullLoop_inv sequence stream c).2.2 c' m hfound
  constructor
  · have h0 := hi.2.2.1 hlast
    unfold IsClosed
    rw [h0]
    rfl
  · intro hw hst
    unfold getLedgerOpened
    rw [hw, hst, hfound]
    rfl

theorem pullLoop_lastLedger_closes_witness :
    IsClosed cSeg9After = true ∧
    (LedgerWithinCheckpoints cSeg9 9 1 = true → cSeg9.stream = [.ok ⟨9, 3⟩] →
      getLedgerOpened 9 cSeg9 = .ret true (some ⟨9, 3⟩) none cSeg9After) :=
  pullLoop_lastLedger_closes 9 cSeg9 [.ok ⟨9, 3⟩] cSeg9After ⟨9, 3⟩ (by decide) (by decide)

/-- C7: a GetLedger call that just returned (true, meta, nil) leaves the
record cached, so an immediately repeated GetLedger of the same sequence
returns the identical record with no error and without touching the
channel or the gate (the state is unchanged); the cached fast path never
errors. -/
theorem getLedger_idempotent (env env2 : Env) (s : Nat) (c : CaptiveState) :
    (∀ m c', GetLedger env s c = .ret true m none c' →
        GetLedger env2 s c' = .ret true m none c') ∧
    (∀ m, c.cachedMeta = some m → s = m.sequence →
        GetLedger env s c = .ret true (some m) none c) := by
  constructor
  · intro m c' h
    obtain ⟨mm, hm, hseq, hcm⟩ := getLedger_true_cached env s c m c' h
    subst hm
    unfold GetLedger
    rw [hcm]
    show (if s = mm.sequence then GLRes.ret true (some mm) none c'
      else GetLedgerUncached env2 s c') = _
    rw [if_pos hseq.symm]
  · intro m hcm hseq
    unfold GetLedger
    rw [hcm]
    show (if s = m.sequence then GLRes.ret true (some m) none c
      else GetLedgerUncached env s c) = _
    rw [if_pos hseq]

theorem getLedger_idempotent_witness :
    GetLedger envOne 1 cOneAfter = .ret true (some ⟨1, 2⟩) none cOneAfter ∧
    GetLedger env9w 5 cCached5 = .ret true (some ⟨5, 0⟩) none cCached5 :=
  ⟨(getLedger_idempotent envOne envOne 1 cFresh).1 (some ⟨1, 2⟩) cOneAfter (by decide),
   (getLedger_idempotent env9w env9w 5 cCached5).2 ⟨5, 0⟩ (by decide) (by decide)⟩

/-- C9: PrepareRange 0 computes from-1 with uint32 wraparound, requesting
start 4294967295; whenever the archive maximum is below 2^32 - 1 the call
fails with the sequence-greater-than-max setup error and the backend
stays closed. -/
theorem prepareRange_zero_wraps (env : Env) (toLedger : Nat) (c : CaptiveState)
    (maxL : Nat) (hurls : c.historyURLs ≠ []) (harch : env.archive = .ok maxL)
    (hmax : maxL < 4294967295) :
    (PrepareRange env 0 toLedger c).errOf.map CoreErr.root =
      some (.seqGreaterThanMax 4294967295 maxL) ∧
    (PrepareRange env 0 toLedger c).closedAfter = true := by
  have hfm : (0 + (u32max - 1)) % u32max = 4294967295 := by decide
  simp only [PrepareRange]
  rw [hfm, open_seq_gt env c 4294967295 toLedger maxL hurls harch (by omega)]
  exact ⟨rfl, isClosed_close _⟩

theorem prepareRange_zero_wraps_witness :
    (PrepareRange env9w 0 300 cFresh).errOf.map CoreErr.root =
      some (.seqGreaterThanMax 4294967295 100) ∧
    (PrepareRange env9w 0 300 cFresh).closedAfter = true :=
  prepareRange_zero_wraps env9w 300 cFresh 100 (by decide) rfl (by decide)

/-- C10: GetLatestLedgerSequence panics exactly when historyURLs is
empty, and on a backend constructed with an empty list every
GetLatestLedgerSequence, PrepareRange and (closed-state, cache-free)
GetLedger call panics with the out-of-bounds index. -/
theorem historyURLs_bounds (env : Env) (c : CaptiveState)
    (sequence fromLedger toLedger : Nat) (np : String) :
    ((GetLatestLedgerSequence env c = .panicked) ↔ c.historyURLs = []) ∧
    GetLatestLedgerSequence env (NewCaptive np []) = .panicked ∧
    PrepareRange env fromLedger toLedger (NewCaptive np []) = .panicked ∧
    GetLedger env sequence (NewCaptive np []) = .panicked := by
  refine ⟨?_, rfl, rfl, rfl⟩
  unfold GetLatestLedgerSequence
  rcases c.historyURLs with _ | ⟨u, us⟩ <;> simp


/-- C2 counterexample: GetLedger 0 on a fresh backend with a healthy
archive returns the unexpected-next-ledger error while leaving the
backend open (gate at 1), contradicting the claim that every error
return leaves it closed. -/
theorem getLedger_error_open_cex :
    (GetLedger envC2cex 0 cFresh).errOf = some .unexpectedNextLedger ∧
    (GetLedger envC2cex 0 cFresh).closedAfter = false := by decide

/-- Auxiliary for the PrepareRange tail: wrapping an inner GetLedger
error preserves error presence. -/
theorem prepareRange_tail_err (env : Env) (c2 : CaptiveState)
    (hson : (GetLedger env 0 c2).errOf.isSome = true) :
    (match GetLedger env 0 c2 with
      | GLRes.panicked => PRRes.panicked
      | GLRes.blocked c => PRRes.blocked c
      | GLRes.ret _ _ none c => PRRes.ret none c
      | GLRes.ret _ _ (some e) c =>
          PRRes.ret (some (.wrap "opening getting ledger from-1" e)) c).errOf.isSome = true := by
  rcases hg : GetLedger env 0 c2 with ⟨f3, m3, e3, c3⟩ | _ | c3 <;> rw [hg] at hson
  · rcases e3 with _ | e4
    · simp [GLRes.errOf] at hson
    · rfl
  · simp [GLRes.errOf] at hson
  · simp [GLRes.errOf] at hson

/-- C2 amended: every error return of GetLedger or PrepareRange whose
root cause is neither the unexpected-next-ledger in-range failure nor the
missing-metadata-pipe check leaves the backend closed; those two paths
return without closing. -/
theorem error_leaves_closed (env : Env) (sequence fromLedger toLedger : Nat)
    (c : CaptiveState) :
    (∀ e, (GetLedger env sequence c).errOf = some e →
        e.root ≠ .unexpectedNextLedger →
        (GetLedger env sequence c).closedAfter = true) ∧
    (∀ e, (PrepareRange env fromLedger toLedger c).errOf = some e →
        e.root ≠ .unexpectedNextLedger → e.root ≠ .missingMetaPipe →
        (PrepareRange env fromLedger toLedger c).closedAfter = true) := by
  constructor
  · intro e he hroot
    rcases hr : GetLedger env sequence c with ⟨f, m, e0, c'⟩ | _ | cb
    · rw [hr] at he
      simp only [GLRes.errOf] at he
      subst he
      show IsClosed c' = true
      exact getLedger_err_closed env sequence c f m e c' hr hroot
    · rfl
    · rw [hr] at he
      exact Option.noConfusion he
  · intro e he hroot hpipe
    simp only [PrepareRange] at he ⊢
    rcases ho : openOfflineReplaySubprocess env c
        ((fromLedger + (u32max - 1)) % u32max) toLedger with ⟨⟨e2 | u, c2⟩⟩ | _
    · rw [ho] at he
      show IsClosed c2 = true
      exact open_err_closed env c _ _ e2 c2 ho
    · rw [ho] at he
      dsimp only at he ⊢
      rcases hpp : env.pipePresent
      · rw [hpp] at he
        rw [if_neg (by decide : ¬ (false = true))] at he
        have he2 : CoreErr.missingMetaPipe = e := Option.some.inj he
        rw [← he2] at hpipe
        exact absurd rfl hpipe
      · rw [hpp] at he
        rw [if_pos (by decide : (true = true))] at he
        rcases hg : GetLedger env ((fromLedger + (u32max - 1)) % u32max) c2 with
          ⟨f3, m3, e3, c3⟩ | _ | c3 <;> rw [hg] at he
        · rcases e3 with _ | e4
          · exact Option.noConfusion he
          · have he2 : CoreErr.wrap "opening getting ledger from-1" e4 = e :=
              Option.some.inj he
            show IsClosed c3 = true
            apply getLedger_err_closed env _ c2 f3 m3 e4 c3 hg
            intro hc4
            apply hroot
            rw [← he2]
            show e4.root = _
            exact hc4
        · exact Option.noConfusion he
        · exact Option.noConfusion he
    · rfl

theorem error_leaves_closed_witness :
    (GetLedger envArchiveBoom 5 cFresh).closedAfter = true ∧
    (PrepareRange envArchiveBoom 7 9 cFresh).closedAfter = true :=
  ⟨(error_leaves_closed envArchiveBoom 5 7 9 cFresh).1
      (.wrap "opening subprocess" (.wrap "getting latest ledger sequence" (.archiveErr "boom")))
      (by decide) (by decide),
   (error_leaves_closed envArchiveBoom 5 7 9 cFresh).2
      (.wrap "opening subprocess" (.wrap "getting latest ledger sequence" (.archiveErr "boom")))
      (by decide) (by decide) (by decide)⟩

/-- C3 counterexample: with archive maximum 100, PrepareRange(101, 300)
returns without error because the code checks from-1 > max, not
from > max, contradicting the claim that from > max always errors. -/
theorem prepareRange_from_gt_max_cex :
    (PrepareRange env3cex 101 300 cFresh).returned = true ∧
    (PrepareRange env3cex 101 300 cFresh).errOf = none := by decide

/-- C3 amended: PrepareRange fails with the setup error (leaving the
backend closed) exactly when from-1 (uint32) exceeds the archive maximum;
and whenever the open succeeds, the segment end lastLedger is set to
min(to, max). -/
theorem prepareRange_bounds (env : Env) (fromLedger toLedger : Nat)
    (c : CaptiveState) (maxL : Nat)
    (hurls : c.historyURLs ≠ []) (harch : env.archive = .ok maxL) :
    ((fromLedger + (u32max - 1)) % u32max > maxL →
        (PrepareRange env fromLedger toLedger c).errOf.map CoreErr.root =
          some (.seqGreaterThanMax ((fromLedger + (u32max - 1)) % u32max) maxL) ∧
        (PrepareRange env fromLedger toLedger c).closedAfter = true) ∧
    (env.runOk = true → (fromLedger + (u32max - 1)) % u32max ≤ maxL →
        openLastLedgerAfter (openOfflineReplaySubprocess env c
            ((fromLedger + (u32max - 1)) % u32max) toLedger) =
          some (some (min toLedger maxL))) := by
  constructor
  · intro hgt
    simp only [PrepareRange]
    rw [open_seq_gt env c ((fromLedger + (u32max - 1)) % u32max) toLedger maxL hurls harch hgt]
    exact ⟨rfl, isClosed_close _⟩
  · intro hrun hle
    exact open_success_lastLedger env c _ toLedger maxL hurls harch hle hrun

theorem prepareRange_bounds_witness :
    ((PrepareRange env9w 500 600 cFresh).errOf.map CoreErr.root =
        some (.seqGreaterThanMax ((500 + (u32max - 1)) % u32max) 100) ∧
      (PrepareRange env9w 500 600 cFresh).closedAfter = true) ∧
    openLastLedgerAfter (openOfflineReplaySubprocess env9w cFresh
        ((50 + (u32max - 1)) % u32max) 600) = some (some (min 600 100)) :=
  ⟨(prepareRange_bounds env9w 500 600 cFresh 100 (by decide) rfl).1 (by decide),
   (prepareRange_bounds env9w 50 600 cFresh 100 (by decide) rfl).2 rfl (by decide)⟩

/-- C5 counterexample: a closed backend that retains a cached record with
the requested sequence answers from the cache; no subprocess is opened
(the ghost openLog stays empty), contradicting the claim that a closed
backend always opens a subprocess for the requested range. -/
theorem getLedger_cached_no_reopen_cex :
    IsClosed cCached5 = true ∧
    GetLedger env5w 5 cCached5 = .ret true (some ⟨5, 0⟩) none cCached5 ∧
    (GetLedger env5w 5 cCached5).openLogAfter = some [] := by decide

/-- C5 amended: provided the requested sequence misses the cache, a
GetLedger on an open backend outside the 10-checkpoint leeway window
behaves exactly as on the closed backend (it closes first); and whenever
the backend is closed at that point (history URLs non-empty), the
subprocess opener is invoked for the range
[sequence, (sequence + ledgersPerProcess) mod 2^32]. -/
theorem getLedger_window_and_open (env : Env) (sequence : Nat) (c : CaptiveState)
    (hmiss : cacheHit c sequence = false) :
    (IsClosed c = false →
        LedgerWithinCheckpoints c sequence numCheckpointsLeeway = false →
        GetLedger env sequence c = GetLedger env sequence (Close c)) ∧
    (IsClosed c = true → c.historyURLs ≠ [] →
        (GetLedger env sequence c).openLogAfter =
          some (c.openLog ++ [(sequence, (sequence + ledgersPerProcess) % u32max)])) := by
  constructor
  · intro hcl hw
    have hmiss2 : cacheHit (Close c) sequence = false := by
      unfold cacheHit at hmiss ⊢
      rw [close_cachedMeta]
      exact hmiss
    rw [getLedger_of_cacheMiss env sequence c hmiss,
      getLedger_of_cacheMiss env sequence (Close c) hmiss2]
    unfold GetLedgerUncached
    rw [hcl, hw, isClosed_close]
    rfl
  · intro hcl hurls
    rw [getLedger_of_cacheMiss env sequence c hmiss]
    unfold GetLedgerUncached
    rw [hcl]
    exact body_closed_openLog env sequence c hcl hurls

theorem getLedger_window_and_open_witness :
    GetLedger env5w 5 cOpen1000 = GetLedger env5w 5 (Close cOpen1000) ∧
    (GetLedger env5w 5 cFresh).openLogAfter =
      some (cFresh.openLog ++ [(5, (5 + ledgersPerProcess) % u32max)]) :=
  ⟨(getLedger_window_and_open env5w 5 cOpen1000 (by decide)).1 (by decide) (by decide),
   (getLedger_window_and_open env5w 5 cFresh (by decide)).2 (by decide) (by decide)⟩

/-- C8 counterexample: the record with sequence 1 is retrievable: a
direct GetLedger 1 on a fresh (closed) backend returns
(true, record 1, nil), contradicting the claim that no successful call
sequence yields ledger 1. -/
theorem ledger_one_retrievable_cex :
    (GetLedger envOne 1 cFresh).foundOf = some true ∧
    (GetLedger envOne 1 cFresh).metaOf = some ⟨1, 2⟩ ∧
    (GetLedger envOne 1 cFresh).errOf = none := by decide

/-- C8 amended: PrepareRange(1, to) always returns a non-nil error (the
from-1 probe requests ledger 0, which the gate can never deliver), for
every environment, archive answer and to, given a non-empty URL list and
no cached sequence-0 record (the API never creates one); ledger 1 itself
remains retrievable by a direct GetLedger 1. -/
theorem prepareRange_from_one_fails (env : Env) (toLedger : Nat) (c : CaptiveState)
    (hurls : c.historyURLs ≠ [])
    (hcache : ∀ m, c.cachedMeta = some m → m.sequence ≠ 0) :
    (PrepareRange env 1 toLedger c).errOf.isSome = true := by
  have hfm : (1 + (u32max - 1)) % u32max = 0 := by decide
  simp only [PrepareRange]
  rw [hfm]
  rcases harch : env.archive with e2 | maxL
  · rw [open_archive_err env c 0 toLedger e2 hurls harch]
    rfl
  · rcases hrun : env.runOk
    · rw [open_run_failed env c 0 toLedger maxL hurls harch (by omega) hrun]
      rfl
    · rw [open_run_ok env c 0 toLedger maxL hurls harch (by omega) hrun]
      rcases hpp : env.pipePresent
      · rfl
      · refine prepareRange_tail_err env _
          (getLedger_zero_fails env maxL _ ?_ harch hrun ?_)
        · show (Close { c with openLog := c.openLog ++ [(0, toLedger)] }).historyURLs ≠ []
          rw [close_historyURLs]
          exact hurls
        · intro m hm
          apply hcache m
          show ({ c with openLog := c.openLog ++ [(0, toLedger)] }).cachedMeta = some m
          rw [← close_cachedMeta]
          exact hm

theorem prepareRange_from_one_fails_witness :
    (PrepareRange envOne 1 99 cFresh).errOf.isSome = true :=
  prepareRange_from_one_fails envOne 99 cFresh (by decide)
    (by intro m hm; simp [cFresh, NewCaptive] at hm)

end CaptiveCore
